import Mathlib

/-!
Verification development for the OSD compositor.

Shallow embedding of the per-frame render engine:
machine `uint32_t` colors are modelled as `Nat` with explicit `% 2^w`
reductions where the C code masks; `float`/`double` arithmetic is modelled
exactly over `ℚ` (the algorithms use no FP-specific behaviour beyond
rounding); fallible operations return error codes just as the C code does.
-/

set_option maxHeartbeats 1000000

namespace OSD

/-! ### Color and blending (src/rendering/blending.c, blending.h)

Colors are `uint32_t` values in `0xAABBGGRR` layout ([R,G,B,A] in memory).
The C bit-field extractions `(c >> k) & 0xFF` are written `c / 2^k % 256`;
assembling disjoint shifted byte fields with `|` coincides with `+`. -/

/-- Source `color_make_argb(a,r,g,b)` from blending.h:
`(a << 24) | (b << 16) | (g << 8) | r` on `uint8_t` inputs. -/
def color_make_argb (a r g b : Nat) : Nat :=
  (a % 256) * 2 ^ 24 + (b % 256) * 2 ^ 16 + (g % 256) * 2 ^ 8 + (r % 256)

/-- Source `color_get_alpha(c)` = `(c >> 24) & 0xFF`. -/
def color_get_alpha (c : Nat) : Nat := c / 2 ^ 24 % 256

/-- Source `color_get_red(c)` = `c & 0xFF` (red is the low byte in RGBA layout). -/
def color_get_red (c : Nat) : Nat := c % 256

/-- Source `color_get_green(c)` = `(c >> 8) & 0xFF`. -/
def color_get_green (c : Nat) : Nat := c / 2 ^ 8 % 256

/-- Source `color_get_blue(c)` = `(c >> 16) & 0xFF`. -/
def color_get_blue (c : Nat) : Nat := c / 2 ^ 16 % 256

/-- The general-case body of `blend_argb` (blending.c lines 94-123):
Porter-Duff "over" with integer `/255` division, per channel. -/
def blend_argb_general (bg fg : Nat) : Nat :=
  let alpha := fg / 2 ^ 24 % 256
  let bg_alpha := bg / 2 ^ 24 % 256
  let inv_alpha := 255 - alpha
  let r := (fg % 256 * alpha + bg % 256 * inv_alpha) / 255
  let g := (fg / 2 ^ 8 % 256 * alpha + bg / 2 ^ 8 % 256 * inv_alpha) / 255
  let b := (fg / 2 ^ 16 % 256 * alpha + bg / 2 ^ 16 % 256 * inv_alpha) / 255
  let result_alpha := alpha + bg_alpha * inv_alpha / 255
  result_alpha * 2 ^ 24 + b * 2 ^ 16 + g * 2 ^ 8 + r

/-- Source `blend_argb(bg, fg)` from blending.c: fast paths for foreground alpha
`0` (returns `bg`) and `255` (returns `fg`), otherwise the general
Porter-Duff "over" computation. -/
def blend_argb (bg fg : Nat) : Nat :=
  let alpha := fg / 2 ^ 24 % 256
  if alpha = 0 then bg
  else if alpha = 255 then fg
  else blend_argb_general bg fg

/-! ### Framebuffer (src/core/framebuffer.c, framebuffer.h)

The pixel plane is a contiguous array addressed as `idx = y*width + x`
(`stride = width*4` concerns the byte view only and is omitted).
Coordinates are C `int`s, modelled as `ℤ`. -/

/-- Source `framebuffer_t`: pixel buffer with dimensions. -/
structure framebuffer_t where
  width : Nat
  height : Nat
  data : List Nat
deriving DecidableEq

/-- Source `framebuffer_in_bounds(fb,x,y)` from framebuffer.h:
`x >= 0 && x < width && y >= 0 && y < height`. -/
def framebuffer_in_bounds (fb : framebuffer_t) (x y : Int) : Bool :=
  decide (0 ≤ x) && decide (x < (fb.width : Int)) &&
  decide (0 ≤ y) && decide (y < (fb.height : Int))

/-- Source `framebuffer_get_pixel`: bounds-checked read; out of bounds returns
transparent black `0x00000000`. -/
def framebuffer_get_pixel (fb : framebuffer_t) (x y : Int) : Nat :=
  if framebuffer_in_bounds fb x y then
    fb.data.getD (y * fb.width + x).toNat 0
  else
    0

/-- Source `framebuffer_set_pixel`: bounds-checked write; out of bounds is a no-op. -/
def framebuffer_set_pixel (fb : framebuffer_t) (x y : Int) (color : Nat) :
    framebuffer_t :=
  if framebuffer_in_bounds fb x y then
    { fb with data := fb.data.set (y * fb.width + x).toNat color }
  else
    fb

/-! ### Math utilities (src/utils/math.c)

`double` arithmetic is modelled exactly over `ℚ`.  C's `fmod(a,b)` is
`a - b*trunc(a/b)` with truncation toward zero. -/

/-- Truncation toward zero, as C `(int)`-cast and `fmod` use. -/
def truncQ (x : ℚ) : ℤ := if 0 ≤ x then ⌊x⌋ else ⌈x⌉

/-- C library `fmod(a,b) = a - b * trunc(a/b)` modelled over `ℚ`. -/
def fmodQ (a b : ℚ) : ℚ := a - b * (truncQ (a / b) : ℚ)

/-- Source `normalize_angle_360` from math.c: wrap with `fmod`, then add 360 if
negative. -/
def normalize_angle_360 (angle : ℚ) : ℚ :=
  let angle := fmodQ angle 360
  if angle < 0 then angle + 360 else angle

/-! ### Sharpness heatmap widget (src/widgets/sharpness_heatmap.c)

`float` arithmetic modelled exactly over `ℚ`. -/

/-- C `(uint8_t)` cast of a nonnegative `float`: truncation toward zero,
which on nonnegative inputs is the floor. -/
def byte_of_float (q : ℚ) : Nat := (⌊q⌋).toNat

/-- Source `sharpness_to_color(value)` from sharpness_heatmap.c: clamp to `[0,1]`,
then a piecewise-linear blue→green→red ramp, alpha 200. -/
def sharpness_to_color (value : ℚ) : Nat :=
  let v1 := if value < 0 then 0 else value
  let v := if v1 > 1 then 1 else v1
  if v < 1 / 2 then
    let t := v * 2
    color_make_argb 200 0 (byte_of_float (t * 255))
      (byte_of_float ((1 - t) * 255))
  else
    let t := (v - 1 / 2) * 2
    color_make_argb 200 (byte_of_float (t * 255))
      (byte_of_float ((1 - t) * 255)) 0

/-- Cell coloring in `sharpness_heatmap_render` (line 105): the color of
cell `i` is `sharpness_to_color(grid_8x8[i])`, i.e. the raw cell value. -/
def heatmap_cell_color (grid : List ℚ) (i : Nat) : Nat :=
  sharpness_to_color (grid.getD i 0)

/-- Minimum over a grid (first element as seed). -/
def grid_min (g : List ℚ) : ℚ := g.foldl min (g.headD 0)

/-- Maximum over a grid (first element as seed). -/
def grid_max (g : List ℚ) : ℚ := g.foldl max (g.headD 0)

/-- Comparison definition following the spec's words, NOT the source:
"Each cell's value is normalized across the visible grid (min/max over the
64 cells); the normalized value maps blue→green→red". -/
def heatmap_cell_color_normalized (grid : List ℚ) (i : Nat) : Nat :=
  let mn := grid_min grid
  let mx := grid_max grid
  let v := grid.getD i 0
  sharpness_to_color (if mx - mn = 0 then 0 else (v - mn) / (mx - mn))

/-- The scenario grid of claim C2: 63 cells at 0.30 and one cell at 0.80. -/
def sharpness_grid_c2 : List ℚ := List.replicate 63 (3 / 10) ++ [4 / 5]

/-! ### Detections widget (src/widgets/detections.c) -/

/-- One decoded detection (NDC box, confidence, class id). -/
structure osd_detection_t where
  x1 : ℚ
  y1 : ℚ
  x2 : ℚ
  y2 : ℚ
  confidence : ℚ
  class_id : Int
deriving DecidableEq

/-- Decoded detections cache view handed to the widget
(`osd_detections_data_t`; `count` is `items.length`, capped at 64 by the
decoder). -/
structure osd_detections_data_t where
  valid : Bool
  status : Int
  items : List osd_detection_t
deriving DecidableEq

/-- Source `detections_config_t` from config/osd_config.h. -/
structure detections_config_t where
  enabled : Bool
  color : Nat
  box_thickness : ℚ
  per_class_color : Bool
  label_font_size : Int
  min_confidence : ℚ
deriving DecidableEq

/-- NDC→pixel conversion used in the render loop (detections.c lines
136-139): `(int)((ndc + 1.0f)/2.0f * dim)` with C truncation. -/
def detection_px (dim : Nat) (ndc : ℚ) : Int := truncQ ((ndc + 1) / 2 * dim)

/-- The per-item test of the render loop: items with
`confidence < min_confidence` are skipped, then the pixel box must have
positive width and height. -/
def detection_kept (c : detections_config_t) (w h : Nat)
    (d : osd_detection_t) : Bool :=
  if d.confidence < c.min_confidence then false
  else
    decide (0 < detection_px w d.x2 - detection_px w d.x1) &&
    decide (0 < detection_px h d.y2 - detection_px h d.y1)

/-- Source `detections_render` from detections.c: early-outs on disabled widget,
invalid cache, `status != DETECTION_STATUS_OK (1)` and empty list; then for
each kept item draws the outlined rectangle plus label. Returns the drawn
items and the widget's changed flag. -/
def detections_render (c : detections_config_t) (w h : Nat)
    (data : osd_detections_data_t) : List osd_detection_t × Bool :=
  if c.enabled = false then ([], false)
  else if data.valid = false then ([], false)
  else if data.status ≠ 1 then ([], false)
  else if data.items.length = 0 then ([], false)
  else
    let drawn := data.items.filter (detection_kept c w h)
    (drawn, !drawn.isEmpty)

/-- Concrete detections configuration used by witnesses. -/
def det_cfg_w : detections_config_t :=
  { enabled := true, color := 0xFF00FF00, box_thickness := 2,
    per_class_color := false, label_font_size := 14,
    min_confidence := 1 / 4 }

/-- Concrete detections data with a failed status, used by witnesses. -/
def det_data_w : osd_detections_data_t :=
  { valid := true, status := 2, items := [] }

/-- Concrete detection item used to instantiate binders in witnesses. -/
def det_item_w : osd_detection_t :=
  { x1 := -1/2, y1 := -1/2, x2 := 1/2, y2 := 1/2,
    confidence := 9/10, class_id := 0 }

/-! ### Telemetry caches and frame orchestrator (src/osd_plugin.c)

The nanopb wire decode (`pb_decode`) is third-party library code outside
src/.  The embedding therefore works with the parsed content of the
telemetry buffer: a `Frame` carries the list of opaque payloads the outer
decode visits, plus whether the outer decode reports success (a mid-stream
failure is a shorter payload list with `decode_ok := false`).  All
dispatch, validation, cache population and orchestration logic below is
translated from osd_plugin.c; the build modelled is the `OSD_STREAM_DAY`
channel variant. -/

/-- The wire message `ser_OsdClientMetadata`.  The source field
`device_pixel_ratio` is named `dpr` here. -/
structure ClientMetadataMsg where
  canvas_width_px : Nat
  canvas_height_px : Nat
  dpr : ℚ
  osd_buffer_width : Nat
  osd_buffer_height : Nat
  video_proxy_ndc_x : ℚ
  video_proxy_ndc_y : ℚ
  video_proxy_ndc_width : ℚ
  video_proxy_ndc_height : ℚ
  scale_factor : ℚ
  is_sharp_mode : Bool
  theme_hue : ℚ
  theme_chroma : ℚ
  theme_lightness : ℚ
deriving DecidableEq

/-- Source `ctx->client_metadata`: the per-frame cache (the C code copies every
message field plus a `valid` flag; the field block is kept as one record). -/
structure client_metadata_cache_t where
  valid : Bool
  meta : ClientMetadataMsg
deriving DecidableEq

/-- Source `ctx->cv_meta`: sharpness cache. -/
structure cv_meta_cache_t where
  sharpness_valid : Bool
  sharpness_level0 : ℚ
  sharpness_level3 : List ℚ
  sharpness_level3_count : Nat
deriving DecidableEq

/-- Source `ctx->detections`: detections cache (`count` = `items.length`). -/
structure detections_cache_t where
  valid : Bool
  status : Int
  items : List osd_detection_t
deriving DecidableEq

/-- Parsed content of one opaque payload's bytes under the schema its UUID
selects; `cvMeta` records `has_channel_day`, `sharpness_valid`,
`sharpness_level0` and the repeated `sharpness_level3` floats;
`detectionsDay` records the status enum and the repeated detections. -/
inductive PayloadContent where
  | clientMeta (m : ClientMetadataMsg)
  | cvMeta (has_channel_day : Bool) (sharpness_valid : Bool)
      (sharpness_level0 : ℚ) (sharpness_level3 : List ℚ)
  | detectionsDay (status : Int) (dets : List osd_detection_t)
deriving DecidableEq

/-- One opaque payload of the telemetry message: the `type_uuid` string,
the payload byte size, and what its bytes decode to under the schema the
UUID selects (`none` models a failed `pb_decode` of the payload). -/
structure OpqPayload where
  type_uuid : String
  payload_size : Nat
  content : Option PayloadContent
deriving DecidableEq

/-- Parsed content of the outer `JonGUIState` message, restricted to the
repeated `opaque_payloads` field which the decode callbacks act on. -/
structure Frame where
  opq_payloads : List OpqPayload
  decode_ok : Bool
deriving DecidableEq

/-- UUID of the `OsdClientMetadata` opaque payload. -/
def OSD_CLIENT_METADATA_UUID : String := "01941b00-0000-7000-8000-000000000001"

/-- UUID of the `CvMeta` (sharpness) opaque payload. -/
def CV_META_UUID : String := "019c3e33-d52d-7552-b36b-6fdcaa5d59b8"

/-- UUID of the day-channel `ObjectDetections` opaque payload. -/
def OBJECT_DETECTIONS_DAY_UUID : String :=
  "019c40f6-825c-7f4c-8284-ddad4375ed9b"

/-- The module-global context `g_osd_ctx` (fields the claims concern). -/
structure OsdCtx where
  framebuffer : List Nat
  proto_buffer : List Nat
  proto_size : Nat
  proto_valid : Bool
  needs_render : Bool
  frame_count : Nat
  cv_meta : cv_meta_cache_t
  detections : detections_cache_t
  client_metadata : client_metadata_cache_t
deriving DecidableEq

/-- Source `opaque_payloads_decode_callback` (osd_plugin.c lines 304-548), for one
payload, day build: match the UUID against the registry
(`opaque_uuid_decode_callback`); a payload larger than the 4096-byte
buffer is skipped (its recorded size becomes 0); unmatched or empty
payloads are skipped (rate-limited log only); otherwise dispatch:
client metadata is range-validated before being stored with its validity
flag; CvMeta stores sharpness level0/level3 and sets the validity flag
only when `has_channel_day && sharpness_valid` (the repeated-field
callback has already filled the 64-entry grid during the decode);
detections first reset the item count, then on decode success store
status and at most 64 items and set the validity flag. -/
def process_opq_payload (ctx : OsdCtx) (p : OpqPayload) : OsdCtx :=
  let matched : Bool :=
    decide (p.type_uuid = OSD_CLIENT_METADATA_UUID) ||
    decide (p.type_uuid = CV_META_UUID) ||
    decide (p.type_uuid = OBJECT_DETECTIONS_DAY_UUID)
  let size := if 4096 < p.payload_size then 0 else p.payload_size
  if matched = false ∨ size = 0 then ctx
  else if p.type_uuid = OSD_CLIENT_METADATA_UUID then
    match p.content with
    | some (PayloadContent.clientMeta m) =>
        if m.canvas_width_px = 0 ∨ 40960 < m.canvas_width_px ∨
            m.canvas_height_px = 0 ∨ 40960 < m.canvas_height_px ∨
            m.dpr ≤ 0 ∨ 10 < m.dpr then
          ctx
        else
          { ctx with client_metadata := { valid := true, meta := m } }
    | _ => ctx
  else if p.type_uuid = CV_META_UUID then
    match p.content with
    | some (PayloadContent.cvMeta hday sval l0 l3) =>
        let ctx2 := { ctx with cv_meta.sharpness_level3 := l3.take 64 }
        if hday = true ∧ sval = true then
          { ctx2 with cv_meta.sharpness_level0 := l0,
                      cv_meta.sharpness_level3_count := l3.length,
                      cv_meta.sharpness_valid := true }
        else ctx2
    | _ => ctx
  else
    match p.content with
    | some (PayloadContent.detectionsDay st dets) =>
        { ctx with detections := { valid := true, status := st,
                                   items := dets.take 64 } }
    | _ => { ctx with detections.items := [] }

/-- Source `decode_proto_state` (osd_plugin.c lines 554-581): refuse when the
telemetry buffer is not marked valid or is empty; reset the per-frame CV
validity flags (sharpness and detections only); run the outer decode,
whose callback processes each opaque payload; report the outer decode's
status.  `frame` is the parsed content of `ctx.proto_buffer`. -/
def decode_proto_state (ctx : OsdCtx) (frame : Frame) : OsdCtx × Bool :=
  if ctx.proto_valid = false ∨ ctx.proto_size = 0 then (ctx, false)
  else
    let ctx2 := { ctx with cv_meta.sharpness_valid := false,
                           detections.valid := false }
    let ctx3 := frame.opq_payloads.foldl process_opq_payload ctx2
    (ctx3, frame.decode_ok)

/-- Source `wasm_osd_update_state` (osd_plugin.c lines 748-778): reject sizes
above the 16384-byte buffer and size 0; otherwise copy `size` bytes from
host memory at `ptr`, mark the buffer valid, request a render, bump the
frame counter. -/
def wasm_osd_update_state (ctx : OsdCtx) (host : Nat → Nat)
    (ptr size : Nat) : OsdCtx × Int :=
  if 16384 < size then (ctx, -1)
  else if size = 0 then (ctx, -1)
  else
    ({ ctx with
        proto_buffer := (List.range size).map (fun i => host (ptr + i)),
        proto_size := size, proto_valid := true, needs_render := true,
        frame_count := ctx.frame_count + 1 }, 0)

/-- The widget identities of the render trace. -/
inductive WidgetId where
  | crosshair
  | timestamp
  | navball
  | variantInfo
  | sharpnessHeatmap
  | detections
  | roi
  | samMask
  | autofocusDebug
deriving DecidableEq

/-- The widget implementations the orchestrator invokes.  Their internals
are irrelevant to the orchestration claims, so they are parameters: each
maps the context and the (possibly absent) decoded proto state to the
updated context and its changed flag.  `sam_mask_render` and
`autofocus_debug_render` exist in src/widgets/ with this signature. -/
structure WidgetSet where
  crosshair_render : OsdCtx → Option Frame → OsdCtx × Bool
  timestamp_render : OsdCtx → Option Frame → OsdCtx × Bool
  navball_render : OsdCtx → Option Frame → OsdCtx × Bool
  variant_info_render : OsdCtx → Option Frame → OsdCtx × Bool
  sharpness_heatmap_render : OsdCtx → Option Frame → OsdCtx × Bool
  detections_render : OsdCtx → Option Frame → OsdCtx × Bool
  roi_render : OsdCtx → Option Frame → OsdCtx × Bool
  sam_mask_render : OsdCtx → Option Frame → OsdCtx × Bool
  autofocus_debug_render : OsdCtx → Option Frame → OsdCtx × Bool

/-- Source `render_widgets` (osd_plugin.c lines 790-819), instrumented with the
invocation trace: crosshair always; timestamp and navball only when the
proto state decoded; variant info, sharpness heatmap and detections
always; ROI only when the proto state decoded.  The changed flags are
OR-ed.  No other widget is invoked. -/
def render_widgets (W : WidgetSet) (ctx : OsdCtx) (proto : Option Frame) :
    OsdCtx × Bool × List WidgetId :=
  let r1 := W.crosshair_render ctx proto
  let s1 := (r1.1, r1.2, [WidgetId.crosshair])
  let s2 :=
    if proto.isSome then
      let r2 := W.timestamp_render s1.1 proto
      let r3 := W.navball_render r2.1 proto
      (r3.1, s1.2.1 || r2.2 || r3.2,
        s1.2.2 ++ [WidgetId.timestamp, WidgetId.navball])
    else s1
  let r4 := W.variant_info_render s2.1 proto
  let r5 := W.sharpness_heatmap_render r4.1 proto
  let r6 := W.detections_render r5.1 proto
  let s3 := (r6.1, s2.2.1 || r4.2 || r5.2 || r6.2,
    s2.2.2 ++ [WidgetId.variantInfo, WidgetId.sharpnessHeatmap,
      WidgetId.detections])
  if proto.isSome then
    let r7 := W.roi_render s3.1 proto
    (r7.1, s3.2.1 || r7.2, s3.2.2 ++ [WidgetId.roi])
  else s3

/-- The framebuffer clear at the top of `wasm_osd_render`
(`memset(g_framebuffer, 0, ...)`). -/
def renderClear (ctx : OsdCtx) : OsdCtx :=
  { ctx with framebuffer := List.replicate ctx.framebuffer.length 0 }

/-- The decode step of `wasm_osd_render`:
`if (g_osd_ctx.proto_valid && decode_proto_state(&g_osd_ctx, &pb_state))
pb_ptr = &pb_state` — the decoder runs only when the buffer is marked
valid, its cache mutations persist either way, and the widgets receive
the decoded state only on success. -/
def renderDecode (parse : List Nat → Frame) (ctx : OsdCtx) :
    OsdCtx × Option Frame :=
  if ctx.proto_valid then
    let f := parse ctx.proto_buffer
    let d := decode_proto_state ctx f
    (d.1, if d.2 then some f else none)
  else (ctx, none)

/-- Source `wasm_osd_render` (osd_plugin.c lines 833-859), instrumented with the
widget invocation trace: early-out on `!needs_render`; clear the
framebuffer to transparent; decode; render the widgets; clear
`needs_render`; return 1 iff some widget reported a change.  `parse` maps
telemetry buffer bytes to their parsed content (the nanopb wire format
is external). -/
def wasm_osd_render (W : WidgetSet) (parse : List Nat → Frame)
    (ctx : OsdCtx) : OsdCtx × Int × List WidgetId :=
  if ctx.needs_render = false then (ctx, 0, [])
  else
    let c1 := renderClear ctx
    let d := renderDecode parse c1
    let r := render_widgets W d.1 d.2
    ({ r.1 with needs_render := false }, if r.2.1 then 1 else 0, r.2.2)

/-- C1 predicate: payload `p` is a CvMeta payload that the day build
decodes with valid sharpness (the only way the decode sets
`cv_meta.sharpness_valid`). -/
def sets_sharpness (p : OpqPayload) : Prop :=
  p.type_uuid = CV_META_UUID ∧ 0 < p.payload_size ∧ p.payload_size ≤ 4096 ∧
  ∃ l0 l3, p.content = some (PayloadContent.cvMeta true true l0 l3)

/-- C1 predicate: payload `p` is a day-channel detections payload that
decodes (the only way the decode sets `detections.valid`). -/
def sets_detections (p : OpqPayload) : Prop :=
  p.type_uuid = OBJECT_DETECTIONS_DAY_UUID ∧ 0 < p.payload_size ∧
  p.payload_size ≤ 4096 ∧
  ∃ st ds, p.content = some (PayloadContent.detectionsDay st ds)

/-- Client metadata message with benign whole-number values, for concrete
contexts. -/
def meta0 : ClientMetadataMsg :=
  { canvas_width_px := 1920, canvas_height_px := 1080, dpr := 1,
    osd_buffer_width := 1920, osd_buffer_height := 1080,
    video_proxy_ndc_x := 0, video_proxy_ndc_y := 0,
    video_proxy_ndc_width := 0, video_proxy_ndc_height := 0,
    scale_factor := 1, is_sharp_mode := false, theme_hue := 0,
    theme_chroma := 0, theme_lightness := 0 }

/-- Baseline concrete context for witnesses and counterexamples. -/
def ctx0 : OsdCtx :=
  { framebuffer := [0, 0, 0, 0], proto_buffer := [], proto_size := 0,
    proto_valid := false, needs_render := true, frame_count := 0,
    cv_meta := { sharpness_valid := false, sharpness_level0 := 0,
                 sharpness_level3 := [], sharpness_level3_count := 0 },
    detections := { valid := false, status := 0, items := [] },
    client_metadata := { valid := false, meta := meta0 } }

/-- Context carrying stale client metadata from a previous frame, with a
valid one-byte telemetry buffer. -/
def ctxStale : OsdCtx :=
  { ctx0 with proto_buffer := [8], proto_size := 1, proto_valid := true,
              client_metadata := { valid := true, meta := meta0 } }

/-- Context with a valid telemetry buffer and a render pending. -/
def ctx_render : OsdCtx :=
  { ctx0 with proto_buffer := [8], proto_size := 1, proto_valid := true }

/-- Context with no render pending. -/
def ctx_idle : OsdCtx := { ctx0 with needs_render := false }

/-- A frame whose outer decode succeeds but carries no opaque payloads. -/
def frame_empty : Frame := { opq_payloads := [], decode_ok := true }

/-- A frame carrying one decodable CvMeta payload. -/
def frame_cv : Frame :=
  { opq_payloads :=
      [OpqPayload.mk CV_META_UUID 10
        (some (PayloadContent.cvMeta true true 1 [1]))],
    decode_ok := true }

/-- Widget implementation that draws nothing and reports no change. -/
def widget_noop : OsdCtx → Option Frame → OsdCtx × Bool :=
  fun ctx _ => (ctx, false)

/-- Widget set built from no-op widgets, for witnesses. -/
def Wtriv : WidgetSet :=
  { crosshair_render := widget_noop, timestamp_render := widget_noop,
    navball_render := widget_noop, variant_info_render := widget_noop,
    sharpness_heatmap_render := widget_noop,
    detections_render := widget_noop, roi_render := widget_noop,
    sam_mask_render := widget_noop, autofocus_debug_render := widget_noop }

/-- Parse function returning the empty frame for every buffer. -/
def parse0 : List Nat → Frame := fun _ => frame_empty

end OSD

namespace OSD

/-! ### Helper lemmas -/

/-- Setting a list element and reading it back at the same index. -/
theorem getD_set_self {α : Type} (l : List α) (i : Nat) (a d : α)
    (h : i < l.length) : (l.set i a).getD i d = a := by
  induction l generalizing i with
  | nil => simp at h
  | cons x xs ih =>
    cases i with
    | zero => rfl
    | succ n =>
      simp only [List.set, List.getD, List.getElem?_cons_succ]
      have := ih n (by simpa using h)
      simpa [List.getD] using this

/-- Setting a list element leaves other indices unchanged. -/
theorem getD_set_ne {α : Type} (l : List α) (i j : Nat) (a d : α)
    (hij : i ≠ j) : (l.set i a).getD j d = l.getD j d := by
  induction l generalizing i j with
  | nil => rfl
  | cons x xs ih =>
    cases i with
    | zero =>
      cases j with
      | zero => exact absurd rfl hij
      | succ m => rfl
    | succ n =>
      cases j with
      | zero => rfl
      | succ m =>
        simp only [List.set, List.getD, List.getElem?_cons_succ]
        have := ih n m (fun h => hij (by omega))
        simpa [List.getD] using this

/-- Row-major index of nonnegative coordinates, in `Nat` form. -/
theorem toNat_index (W : Nat) (x y : Int) (hx : 0 ≤ x) (hy : 0 ≤ y) :
    (y * (W : Int) + x).toNat = y.toNat * W + x.toNat := by
  have hx2 : (x.toNat : Int) = x := Int.toNat_of_nonneg hx
  have hy2 : (y.toNat : Int) = y := Int.toNat_of_nonneg hy
  have he : y * (W : Int) + x = ((y.toNat * W + x.toNat : Nat) : Int) := by
    push_cast [hx2, hy2]
    ring
  rw [he]
  exact Int.toNat_natCast _

/-- Row-major indexing is injective on in-bounds coordinates. -/
theorem index_inj (W nx ny nx2 ny2 : Nat) (hW : 0 < W) (hx : nx < W)
    (hx2 : nx2 < W) (h : ny * W + nx = ny2 * W + nx2) :
    nx = nx2 ∧ ny = ny2 := by
  have h1 : (ny * W + nx) % W = nx := by
    rw [Nat.add_comm, Nat.add_mul_mod_self_right, Nat.mod_eq_of_lt hx]
  have h2 : (ny2 * W + nx2) % W = nx2 := by
    rw [Nat.add_comm, Nat.add_mul_mod_self_right, Nat.mod_eq_of_lt hx2]
  have hxe : nx = nx2 := by rw [← h1, h, h2]
  refine ⟨hxe, ?_⟩
  have hm : ny * W = ny2 * W := by omega
  exact Nat.eq_of_mul_eq_mul_right hW hm

/-- Assembled byte fields decompose back: the alpha slot of
`ra*2^24 + b*2^16 + g*2^8 + r` is `ra` when every field fits a byte. -/
theorem alpha_of_packed (ra b g r : Nat) (hra : ra ≤ 255) (hb : b ≤ 255)
    (hg : g ≤ 255) (hr : r ≤ 255) :
    (ra * 2 ^ 24 + b * 2 ^ 16 + g * 2 ^ 8 + r) / 2 ^ 24 % 256 = ra := by
  omega

/-- Byte decomposition of a 32-bit value: extracting the four bytes of `n < 2^32` and
re-packing them yields `n`. -/
theorem byte_decomposition (n : Nat) (h : n < 2 ^ 32) :
    n / 2 ^ 24 % 256 * 2 ^ 24 + n / 2 ^ 16 % 256 * 2 ^ 16 +
      n / 2 ^ 8 % 256 * 2 ^ 8 + n % 256 = n := by
  omega

/-- A blended channel `(x*α + y*(255-α))/255` never exceeds a byte. -/
theorem blend_channel_le (x y a : Nat) (hx : x ≤ 255) (hy : y ≤ 255)
    (ha : a ≤ 255) : (x * a + y * (255 - a)) / 255 ≤ 255 := by
  have h1 : x * a ≤ 255 * a := Nat.mul_le_mul_right a hx
  have h2 : y * (255 - a) ≤ 255 * (255 - a) := Nat.mul_le_mul_right _ hy
  have h3 : x * a + y * (255 - a) ≤ 255 * 255 := by
    have : 255 * a + 255 * (255 - a) = 255 * 255 := by
      have : a + (255 - a) = 255 := by omega
      calc 255 * a + 255 * (255 - a) = 255 * (a + (255 - a)) := by ring
        _ = 255 * 255 := by rw [this]
    omega
  calc (x * a + y * (255 - a)) / 255 ≤ 255 * 255 / 255 :=
        Nat.div_le_div_right h3
    _ = 255 := by norm_num

/-- The blended output alpha `α + bgα*(255-α)/255` is at least `bgα`. -/
theorem blend_alpha_ge_bg (a b : Nat) (ha : a ≤ 255) (hb : b ≤ 255) :
    b ≤ a + b * (255 - a) / 255 := by
  rcases Nat.le_total b a with h | h
  · omega
  · obtain ⟨d, hd⟩ : ∃ d, b = a + d := ⟨b - a, by omega⟩
    obtain ⟨c, hc⟩ : ∃ c, 255 = a + c := ⟨255 - a, by omega⟩
    have hdc : d ≤ c := by omega
    have hca : 255 - a = c := by omega
    subst hd
    rw [hca]
    suffices hs : d ≤ (a + d) * c / 255 by omega
    rw [Nat.le_div_iff_mul_le (by norm_num : 0 < 255)]
    calc d * 255 = d * (a + c) := by rw [← hc]
      _ = a * d + d * c := by ring
      _ ≤ a * c + d * c :=
          Nat.add_le_add_right (Nat.mul_le_mul_left a hdc) (d * c)
      _ = (a + d) * c := by ring

/-- The blended output alpha `α + bgα*(255-α)/255` fits a byte. -/
theorem blend_alpha_le (a b : Nat) (ha : a ≤ 255) (hb : b ≤ 255) :
    a + b * (255 - a) / 255 ≤ 255 := by
  have h1 : b * (255 - a) ≤ 255 * (255 - a) := Nat.mul_le_mul_right _ hb
  have h2 : b * (255 - a) / 255 ≤ 255 * (255 - a) / 255 :=
    Nat.div_le_div_right h1
  have h3 : 255 * (255 - a) / 255 = 255 - a :=
    Nat.mul_div_cancel_left _ (by norm_num)
  omega

/-! ### Claim theorems -/

/-- C8: `blend_over(bg, transparent)` equals `bg` and `blend_over(bg, opaque)`
equals `fg` exactly, and both fast-path results agree with the general
Porter-Duff "over" formula computed with integer `/255` division. -/
theorem blend_argb_fast_paths (bg fg : Nat) (hbg : bg < 2 ^ 32)
    (hfg : fg < 2 ^ 32) :
    (color_get_alpha fg = 0 →
      blend_argb bg fg = bg ∧ blend_argb_general bg fg = bg) ∧
    (color_get_alpha fg = 255 →
      blend_argb bg fg = fg ∧ blend_argb_general bg fg = fg) := by
  constructor
  · intro h
    have h' : fg / 2 ^ 24 % 256 = 0 := h
    constructor
    · simp only [blend_argb]
      rw [if_pos h']
    · simp only [blend_argb_general, h']
      have := byte_decomposition bg hbg
      omega
  · intro h
    have h' : fg / 2 ^ 24 % 256 = 255 := h
    constructor
    · simp only [blend_argb]
      rw [if_neg (by omega), if_pos h']
    · simp only [blend_argb_general, h']
      have hbgd := byte_decomposition bg hbg
      have hfgd := byte_decomposition fg hfg
      omega

/-- C8 witness: concrete instantiation of the fast-path theorem. -/
theorem blend_argb_fast_paths_witness :
    blend_argb 0xFF112233 0x00445566 = 0xFF112233 ∧
    blend_argb 0xFF112233 0xFF445566 = 0xFF445566 :=
  ⟨((blend_argb_fast_paths 0xFF112233 0x00445566 (by norm_num)
      (by norm_num)).1 (by decide)).1,
   ((blend_argb_fast_paths 0xFF112233 0xFF445566 (by norm_num)
      (by norm_num)).2 (by decide)).1⟩

/-- C10: blending never decreases the alpha channel below either input's
alpha and never overflows the alpha byte. -/
theorem blend_argb_alpha_monotone (bg fg : Nat) :
    max (color_get_alpha bg) (color_get_alpha fg) ≤
      color_get_alpha (blend_argb bg fg) ∧
    color_get_alpha (blend_argb bg fg) ≤ 255 := by
  simp only [blend_argb, color_get_alpha]
  by_cases h0 : fg / 2 ^ 24 % 256 = 0
  · rw [if_pos h0]
    refine ⟨?_, by omega⟩
    rw [h0]
    exact max_le (le_refl _) (by omega)
  · by_cases h255 : fg / 2 ^ 24 % 256 = 255
    · rw [if_neg h0, if_pos h255]
      refine ⟨max_le (by omega) (by omega), by omega⟩
    · rw [if_neg h0, if_neg h255]
      simp only [blend_argb_general]
      set a := fg / 2 ^ 24 % 256 with ha_def
      set ba := bg / 2 ^ 24 % 256 with hba_def
      have ha255 : a ≤ 255 := by omega
      have hba255 : ba ≤ 255 := by omega
      have hr : (fg % 256 * a + bg % 256 * (255 - a)) / 255 ≤ 255 :=
        blend_channel_le _ _ _ (by omega) (by omega) ha255
      have hg : (fg / 2 ^ 8 % 256 * a + bg / 2 ^ 8 % 256 * (255 - a)) / 255
          ≤ 255 :=
        blend_channel_le _ _ _ (by omega) (by omega) ha255
      have hb : (fg / 2 ^ 16 % 256 * a + bg / 2 ^ 16 % 256 * (255 - a)) / 255
          ≤ 255 :=
        blend_channel_le _ _ _ (by omega) (by omega) ha255
      have hra_le : a + ba * (255 - a) / 255 ≤ 255 :=
        blend_alpha_le a ba ha255 hba255
      have hra_ge : ba ≤ a + ba * (255 - a) / 255 :=
        blend_alpha_ge_bg a ba ha255 hba255
      have hpack := alpha_of_packed (a + ba * (255 - a) / 255)
        ((fg / 2 ^ 16 % 256 * a + bg / 2 ^ 16 % 256 * (255 - a)) / 255)
        ((fg / 2 ^ 8 % 256 * a + bg / 2 ^ 8 % 256 * (255 - a)) / 255)
        ((fg % 256 * a + bg % 256 * (255 - a)) / 255)
        hra_le hb hg hr
      simp only [hpack]
      exact ⟨max_le (by omega) (by omega), hra_le⟩

/-- C7: `framebuffer_set_pixel` stores the color retrievably when in bounds
and changes no other pixel; out of bounds it is a no-op and
`framebuffer_get_pixel` reads transparent black out of bounds. -/
theorem framebuffer_set_pixel_spec (fb : framebuffer_t) (x y : Int) (c : Nat)
    (hlen : fb.data.length = fb.width * fb.height) :
    (framebuffer_in_bounds fb x y = true →
      framebuffer_get_pixel (framebuffer_set_pixel fb x y c) x y = c ∧
      ∀ x2 y2 : Int, ¬(x2 = x ∧ y2 = y) →
        framebuffer_get_pixel (framebuffer_set_pixel fb x y c) x2 y2 =
          framebuffer_get_pixel fb x2 y2) ∧
    (framebuffer_in_bounds fb x y = false →
      framebuffer_set_pixel fb x y c = fb ∧
      framebuffer_get_pixel fb x y = 0) := by
  constructor
  · intro hin
    have hb := hin
    simp only [framebuffer_in_bounds, Bool.and_eq_true, decide_eq_true_eq]
      at hb
    obtain ⟨⟨⟨hx0, hxw⟩, hy0⟩, hyh⟩ := hb
    have hxn : x.toNat < fb.width := by omega
    have hyn : y.toNat < fb.height := by omega
    have hW0 : 0 < fb.width := by omega
    have hti := toNat_index fb.width x y hx0 hy0
    have hidx : (y * fb.width + x).toNat < fb.data.length := by
      rw [hlen, hti]
      calc y.toNat * fb.width + x.toNat
          < y.toNat * fb.width + fb.width := by omega
        _ = (y.toNat + 1) * fb.width := by ring
        _ ≤ fb.height * fb.width := Nat.mul_le_mul_right _ (by omega)
        _ = fb.width * fb.height := Nat.mul_comm _ _
    constructor
    · simp only [framebuffer_set_pixel, if_pos hin, framebuffer_get_pixel]
      have hin2 : framebuffer_in_bounds
          { fb with data := fb.data.set (y * fb.width + x).toNat c } x y
          = true := hin
      rw [if_pos hin2]
      exact getD_set_self _ _ _ _ hidx
    · intro x2 y2 hne
      simp only [framebuffer_set_pixel, if_pos hin, framebuffer_get_pixel]
      have hsame : framebuffer_in_bounds
          { fb with data := fb.data.set (y * fb.width + x).toNat c } x2 y2
          = framebuffer_in_bounds fb x2 y2 := rfl
      rw [hsame]
      by_cases hin3 : framebuffer_in_bounds fb x2 y2 = true
      · rw [if_pos hin3, if_pos hin3]
        have hb2 := hin3
        simp only [framebuffer_in_bounds, Bool.and_eq_true,
          decide_eq_true_eq] at hb2
        obtain ⟨⟨⟨hx20, hx2w⟩, hy20⟩, hy2h⟩ := hb2
        apply getD_set_ne
        intro hcontra
        apply hne
        rw [hti, toNat_index fb.width x2 y2 hx20 hy20] at hcontra
        have hinj := index_inj fb.width x.toNat y.toNat x2.toNat y2.toNat
          hW0 hxn (by omega) hcontra
        constructor <;> omega
      · rw [if_neg hin3, if_neg hin3]
  · intro hout
    constructor
    · simp [framebuffer_set_pixel, hout]
    · simp [framebuffer_get_pixel, hout]

/-- C7 witness: concrete 3×2 framebuffer, in-bounds write at (1,1) and
out-of-bounds behaviour at (5,0). -/
theorem framebuffer_set_pixel_spec_witness :
    (framebuffer_get_pixel
        (framebuffer_set_pixel ⟨3, 2, [1, 2, 3, 4, 5, 6]⟩ 1 1 99) 1 1 = 99) ∧
    (framebuffer_set_pixel ⟨3, 2, [1, 2, 3, 4, 5, 6]⟩ 5 0 99 =
        ⟨3, 2, [1, 2, 3, 4, 5, 6]⟩) := by
  refine ⟨?_, ?_⟩
  · exact ((framebuffer_set_pixel_spec ⟨3, 2, [1, 2, 3, 4, 5, 6]⟩ 1 1 99
      (by decide)).1 (by decide)).1
  · exact ((framebuffer_set_pixel_spec ⟨3, 2, [1, 2, 3, 4, 5, 6]⟩ 5 0 99
      (by decide)).2 (by decide)).1

/-- C9: `normalize_angle_360` lands in `[0, 360)` and is congruent to its
input modulo 360. -/
theorem normalize_angle_360_spec (a : ℚ) :
    0 ≤ normalize_angle_360 a ∧ normalize_angle_360 a < 360 ∧
    ∃ k : ℤ, a - normalize_angle_360 a = 360 * k := by
  unfold normalize_angle_360 fmodQ truncQ
  by_cases h : 0 ≤ a / 360
  · simp only [if_pos h]
    have hfl : ((⌊a / 360⌋ : ℤ) : ℚ) ≤ a / 360 := Int.floor_le _
    have hfu : a / 360 < (⌊a / 360⌋ : ℚ) + 1 := Int.lt_floor_add_one _
    have hmul : a / 360 * 360 = a := div_mul_cancel₀ a (by norm_num)
    have h1 : (⌊a / 360⌋ : ℚ) * 360 ≤ a := by
      calc (⌊a / 360⌋ : ℚ) * 360 ≤ a / 360 * 360 := by
            apply mul_le_mul_of_nonneg_right hfl (by norm_num)
        _ = a := hmul
    have h2 : a < (⌊a / 360⌋ : ℚ) * 360 + 360 := by
      have := mul_lt_mul_of_pos_right hfu (by norm_num : (0:ℚ) < 360)
      rw [hmul] at this
      linarith
    have hnn : ¬(a - 360 * (⌊a / 360⌋ : ℚ) < 0) := by
      push_neg
      linarith
    simp only [if_neg hnn]
    refine ⟨by linarith, by linarith, ⟨⌊a / 360⌋, by ring⟩⟩
  · simp only [if_neg h]
    have hcl : a / 360 ≤ ((⌈a / 360⌉ : ℤ) : ℚ) := Int.le_ceil _
    have hcu : ((⌈a / 360⌉ : ℤ) : ℚ) < a / 360 + 1 := Int.ceil_lt_add_one _
    have hmul : a / 360 * 360 = a := div_mul_cancel₀ a (by norm_num)
    have h1 : a ≤ (⌈a / 360⌉ : ℚ) * 360 := by
      calc a = a / 360 * 360 := hmul.symm
        _ ≤ (⌈a / 360⌉ : ℚ) * 360 :=
          mul_le_mul_of_nonneg_right hcl (by norm_num)
    have h2 : (⌈a / 360⌉ : ℚ) * 360 < a + 360 := by
      have := mul_lt_mul_of_pos_right hcu (by norm_num : (0:ℚ) < 360)
      rw [add_mul, hmul, one_mul] at this
      linarith
    by_cases hm : a - 360 * ((⌈a / 360⌉ : ℤ) : ℚ) < 0
    · simp only [if_pos hm]
      refine ⟨by linarith, by linarith, ⟨⌈a / 360⌉ - 1, by push_cast; ring⟩⟩
    · simp only [if_neg hm]
      push_neg at hm
      refine ⟨by linarith, by linarith, ⟨⌈a / 360⌉, by ring⟩⟩

/-- The alpha slot of `color_make_argb` is the alpha argument (mod 256). -/
theorem color_get_alpha_make (a r g b : Nat) :
    color_get_alpha (color_make_argb a r g b) = a % 256 := by
  unfold color_get_alpha color_make_argb
  omega

/-- Source `byte_of_float` evaluation rule from bracketing bounds. -/
theorem byte_of_float_eq (q : ℚ) (n : Nat) (h1 : (n : ℚ) ≤ q)
    (h2 : q < n + 1) : byte_of_float q = n := by
  unfold byte_of_float
  have hf : ⌊q⌋ = (n : ℤ) := by
    rw [Int.floor_eq_iff]
    constructor
    · exact_mod_cast h1
    · push_cast
      exact h2
  rw [hf, Int.toNat_natCast]

/-- The blue→green half of the ramp, with the clamping resolved. -/
theorem sharpness_to_color_below_half (v : ℚ) (h0 : 0 ≤ v)
    (hh : v < 1 / 2) :
    sharpness_to_color v =
      color_make_argb 200 0 (byte_of_float (v * 2 * 255))
        (byte_of_float ((1 - v * 2) * 255)) := by
  simp only [sharpness_to_color]
  rw [if_neg (not_lt.mpr h0), if_neg (by linarith : ¬v > 1), if_pos hh]

/-- The green→red half of the ramp, with the clamping resolved. -/
theorem sharpness_to_color_above_half (v : ℚ) (h1 : v ≤ 1)
    (hh : ¬v < 1 / 2) :
    sharpness_to_color v =
      color_make_argb 200 (byte_of_float ((v - 1 / 2) * 2 * 255))
        (byte_of_float ((1 - (v - 1 / 2) * 2) * 255)) 0 := by
  simp only [sharpness_to_color]
  rw [if_neg (by push_neg at hh ⊢; linarith : ¬v < 0),
    if_neg (not_lt.mpr h1), if_neg hh]

/-- Evaluation: the ramp at `0.30`. -/
theorem sharpness_to_color_030 :
    sharpness_to_color (3 / 10) = color_make_argb 200 0 153 102 := by
  rw [sharpness_to_color_below_half (3 / 10) (by norm_num) (by norm_num),
    byte_of_float_eq (3 / 10 * 2 * 255) 153 (by norm_num) (by norm_num),
    byte_of_float_eq ((1 - 3 / 10 * 2) * 255) 102 (by norm_num)
      (by norm_num)]

/-- Evaluation: the ramp at `0.80`. -/
theorem sharpness_to_color_080 :
    sharpness_to_color (4 / 5) = color_make_argb 200 153 102 0 := by
  rw [sharpness_to_color_above_half (4 / 5) (by norm_num) (by norm_num),
    byte_of_float_eq ((4 / 5 - 1 / 2) * 2 * 255) 153 (by norm_num)
      (by norm_num),
    byte_of_float_eq ((1 - (4 / 5 - 1 / 2) * 2) * 255) 102 (by norm_num)
      (by norm_num)]

/-- Evaluation: the ramp at `0` (the blue end). -/
theorem sharpness_to_color_zero :
    sharpness_to_color 0 = color_make_argb 200 0 0 255 := by
  rw [sharpness_to_color_below_half 0 (by norm_num) (by norm_num),
    byte_of_float_eq (0 * 2 * 255) 0 (by norm_num) (by norm_num),
    byte_of_float_eq ((1 - 0 * 2) * 255) 255 (by norm_num) (by norm_num)]

/-- Folding `min` over a constant list. -/
theorem foldl_min_replicate (n : Nat) (a b : ℚ) :
    (List.replicate n b).foldl min a = if n = 0 then a else min a b := by
  induction n generalizing a with
  | zero => rfl
  | succ m ih =>
    rw [List.replicate_succ, List.foldl_cons, ih]
    by_cases hm : m = 0
    · simp [hm]
    · rw [if_neg hm, if_neg (Nat.succ_ne_zero m), min_assoc, min_self]

/-- Folding `max` over a constant list. -/
theorem foldl_max_replicate (n : Nat) (a b : ℚ) :
    (List.replicate n b).foldl max a = if n = 0 then a else max a b := by
  induction n generalizing a with
  | zero => rfl
  | succ m ih =>
    rw [List.replicate_succ, List.foldl_cons, ih]
    by_cases hm : m = 0
    · simp [hm]
    · rw [if_neg hm, if_neg (Nat.succ_ne_zero m), max_assoc, max_self]

/-- The minimum over the C2 grid is `0.30`. -/
theorem grid_min_c2 : grid_min sharpness_grid_c2 = 3 / 10 := by
  unfold grid_min
  have hh : sharpness_grid_c2.headD 0 = 3 / 10 := rfl
  have hg : sharpness_grid_c2 = List.replicate 63 ((3 : ℚ) / 10) ++ [4 / 5] :=
    rfl
  rw [hh, hg, List.foldl_append, foldl_min_replicate, if_neg (by norm_num),
    List.foldl_cons, List.foldl_nil, min_self]
  rw [min_def, if_pos (by norm_num)]

/-- The maximum over the C2 grid is `0.80`. -/
theorem grid_max_c2 : grid_max sharpness_grid_c2 = 4 / 5 := by
  unfold grid_max
  have hh : sharpness_grid_c2.headD 0 = 3 / 10 := rfl
  have hg : sharpness_grid_c2 = List.replicate 63 ((3 : ℚ) / 10) ++ [4 / 5] :=
    rfl
  rw [hh, hg, List.foldl_append, foldl_max_replicate, if_neg (by norm_num),
    List.foldl_cons, List.foldl_nil, max_self]
  rw [max_def, if_pos (by norm_num)]

/-- Cell 0 of the C2 grid holds `0.30`. -/
theorem grid_c2_cell0 : sharpness_grid_c2.getD 0 0 = 3 / 10 := rfl

/-- Cell 63 of the C2 grid holds `0.80`. -/
theorem grid_c2_cell63 : sharpness_grid_c2.getD 63 0 = 4 / 5 := rfl

/-- The code's color of a `0.30` cell of the C2 grid. -/
theorem heatmap_cell_color_c2_0 :
    heatmap_cell_color sharpness_grid_c2 0 = color_make_argb 200 0 153 102 := by
  unfold heatmap_cell_color
  rw [grid_c2_cell0, sharpness_to_color_030]

/-- The code's color of the `0.80` cell of the C2 grid. -/
theorem heatmap_cell_color_c2_63 :
    heatmap_cell_color sharpness_grid_c2 63 =
      color_make_argb 200 153 102 0 := by
  unfold heatmap_cell_color
  rw [grid_c2_cell63, sharpness_to_color_080]

/-- The spec's normalized color of a `0.30` cell of the C2 grid. -/
theorem heatmap_cell_color_normalized_c2_0 :
    heatmap_cell_color_normalized sharpness_grid_c2 0 =
      color_make_argb 200 0 0 255 := by
  simp only [heatmap_cell_color_normalized]
  rw [grid_min_c2, grid_max_c2, grid_c2_cell0, if_neg (by norm_num)]
  have hz : ((3 : ℚ) / 10 - 3 / 10) / (4 / 5 - 3 / 10) = 0 := by norm_num
  rw [hz, sharpness_to_color_zero]

/-- C2 counterexample: on the grid of 63 cells at `0.30` and one at `0.80`,
the code's cell color (raw value through the ramp) differs from the
spec's min/max-normalized cell color, and the `0.30` cell is not at the
blue end of the ramp (its green channel exceeds its blue channel). -/
theorem sharpness_heatmap_normalization_counterexample :
    heatmap_cell_color sharpness_grid_c2 0 ≠
      heatmap_cell_color_normalized sharpness_grid_c2 0 ∧
    color_get_blue (heatmap_cell_color sharpness_grid_c2 0) <
      color_get_green (heatmap_cell_color sharpness_grid_c2 0) := by
  rw [heatmap_cell_color_c2_0, heatmap_cell_color_normalized_c2_0]
  exact ⟨by decide, by decide⟩

/-- C2 amended: the heatmap colors each cell from its RAW value clamped to
`[0,1]` (no normalization over the grid), with alpha 200 (≈ 0.78·255); on
the C2 grid the `0.80` cell is red-dominant, while the `0.30` cells are
green-dominant (not at the blue end). -/
theorem sharpness_heatmap_raw_value_spec :
    (∀ v : ℚ, color_get_alpha (sharpness_to_color v) = 200) ∧
    (∀ (grid : List ℚ) (i : Nat),
        heatmap_cell_color grid i = sharpness_to_color (grid.getD i 0)) ∧
    (color_get_blue (heatmap_cell_color sharpness_grid_c2 63) = 0 ∧
      color_get_green (heatmap_cell_color sharpness_grid_c2 63) <
        color_get_red (heatmap_cell_color sharpness_grid_c2 63)) ∧
    (color_get_red (heatmap_cell_color sharpness_grid_c2 0) = 0 ∧
      0 < color_get_blue (heatmap_cell_color sharpness_grid_c2 0) ∧
      color_get_blue (heatmap_cell_color sharpness_grid_c2 0) <
        color_get_green (heatmap_cell_color sharpness_grid_c2 0)) := by
  refine ⟨?_, fun grid i => rfl, ?_, ?_⟩
  · intro v
    simp only [sharpness_to_color]
    by_cases hlow : (if (if v < 0 then (0 : ℚ) else v) > 1 then (1 : ℚ)
        else if v < 0 then (0 : ℚ) else v) < 1 / 2
    · rw [if_pos hlow, color_get_alpha_make]
    · rw [if_neg hlow, color_get_alpha_make]
  · rw [heatmap_cell_color_c2_63]
    exact ⟨by decide, by decide⟩
  · rw [heatmap_cell_color_c2_0]
    exact ⟨by decide, by decide, by decide⟩

/-- C6: an item is drawn (outlined rectangle plus label) iff the widget is
enabled, the decoded cache is valid with `status == OK (1)`, the item's
confidence reaches `min_confidence`, and the NDC→pixel box has positive
width and height; when `status != OK` nothing is drawn and the widget
reports no change. -/
theorem detections_render_spec (c : detections_config_t) (w h : Nat)
    (data : osd_detections_data_t) (d : osd_detection_t) :
    (d ∈ (detections_render c w h data).1 ↔
      (c.enabled = true ∧ data.valid = true ∧ data.status = 1 ∧
        d ∈ data.items ∧ c.min_confidence ≤ d.confidence ∧
        0 < detection_px w d.x2 - detection_px w d.x1 ∧
        0 < detection_px h d.y2 - detection_px h d.y1)) ∧
    (data.status ≠ 1 → detections_render c w h data = ([], false)) := by
  unfold detections_render
  split_ifs with h1 h2 h3 h4
  · simp [h1]
  · simp [h2]
  · simp [h3]
  · have : data.items = [] := List.length_eq_zero.mp h4
    simp [this]
  · have he : c.enabled = true := by
      revert h1; cases c.enabled <;> simp
    have hv : data.valid = true := by
      revert h2; cases data.valid <;> simp
    constructor
    · rw [List.mem_filter]
      unfold detection_kept
      constructor
      · rintro ⟨hmem, hkept⟩
        rw [apply_ite (· = true)] at hkept
        by_cases hc : d.confidence < c.min_confidence
        · rw [if_pos hc] at hkept
          exact absurd hkept (by simp)
        · rw [if_neg hc] at hkept
          simp only [Bool.and_eq_true, decide_eq_true_eq] at hkept
          exact ⟨he, hv, by omega, hmem, le_of_not_lt hc, hkept.1, hkept.2⟩
      · rintro ⟨-, -, -, hmem, hconf, hw, hh⟩
        refine ⟨hmem, ?_⟩
        rw [if_neg (not_lt.mpr hconf)]
        simp only [Bool.and_eq_true, decide_eq_true_eq]
        exact ⟨hw, hh⟩
    · intro hst
      exact absurd hst h3

/-- C6 witness: with a failed detection status nothing is drawn and the
widget reports no change. -/
theorem detections_render_spec_witness :
    detections_render det_cfg_w 1920 1080 det_data_w = ([], false) :=
  (detections_render_spec det_cfg_w 1920 1080 det_data_w det_item_w).2
    (by decide)

/-- C5: `update_state` rejects size 0 and sizes above 16384 bytes leaving
the whole context unchanged; for `1 ≤ size ≤ 16384` it copies exactly
`size` bytes from the host region, marks the buffer valid, requests a
render, bumps the frame counter and returns 0. -/
theorem wasm_osd_update_state_spec (ctx : OsdCtx) (host : Nat → Nat)
    (ptr size : Nat) :
    (size = 0 ∨ 16384 < size →
      wasm_osd_update_state ctx host ptr size = (ctx, -1)) ∧
    (1 ≤ size → size ≤ 16384 →
      wasm_osd_update_state ctx host ptr size =
        ({ ctx with
            proto_buffer := (List.range size).map (fun i => host (ptr + i)),
            proto_size := size, proto_valid := true, needs_render := true,
            frame_count := ctx.frame_count + 1 }, 0) ∧
      (wasm_osd_update_state ctx host ptr size).1.proto_buffer.length = size ∧
      ∀ i, i < size →
        (wasm_osd_update_state ctx host ptr size).1.proto_buffer.getD i 0 =
          host (ptr + i)) := by
  constructor
  · intro h
    unfold wasm_osd_update_state
    rcases h with h | h
    · rw [if_neg (by omega), if_pos h]
    · rw [if_pos h]
  · intro h1 h2
    unfold wasm_osd_update_state
    rw [if_neg (by omega), if_neg (by omega)]
    refine ⟨rfl, by simp, ?_⟩
    intro i hi
    simp [List.getD_eq_getElem?_getD, List.getElem?_map,
      List.getElem?_range hi]

/-- C5 witness: size 0 is rejected without touching the context, and a
one-byte update copies that byte and returns 0. -/
theorem wasm_osd_update_state_spec_witness :
    wasm_osd_update_state ctx0 (fun i => i % 256) 0 0 = (ctx0, -1) ∧
    (wasm_osd_update_state ctx0 (fun i => i % 256) 7 1).1.proto_buffer.getD
      0 0 = 7 % 256 :=
  ⟨(wasm_osd_update_state_spec ctx0 (fun i => i % 256) 0 0).1 (Or.inl rfl),
   (((wasm_osd_update_state_spec ctx0 (fun i => i % 256) 7 1).2 (by decide)
      (by decide)).2.2) 0 (by decide)⟩

/-- Source `process_opq_payload` sets the sharpness validity flag only for a
decodable day-channel CvMeta payload. -/
theorem process_sharpness_mono (ctx : OsdCtx) (p : OpqPayload)
    (h : (process_opq_payload ctx p).cv_meta.sharpness_valid = true) :
    ctx.cv_meta.sharpness_valid = true ∨ sets_sharpness p := by
  rcases p with ⟨uuid, psize, content⟩
  rcases content with _ | c
  · simp only [process_opq_payload] at h
    by_cases hp : 4096 < psize
    · rw [if_pos hp, if_pos (Or.inr rfl)] at h
      exact Or.inl h
    · rw [if_neg hp] at h
      by_cases hg : (decide (uuid = OSD_CLIENT_METADATA_UUID) ||
        decide (uuid = CV_META_UUID) ||
        decide (uuid = OBJECT_DETECTIONS_DAY_UUID)) = false ∨ psize = 0
      · rw [if_pos hg] at h
        exact Or.inl h
      · rw [if_neg hg] at h
        by_cases hcl : uuid = OSD_CLIENT_METADATA_UUID
        · rw [if_pos hcl] at h
          exact Or.inl h
        · rw [if_neg hcl] at h
          by_cases hcv : uuid = CV_META_UUID
          · rw [if_pos hcv] at h
            exact Or.inl h
          · rw [if_neg hcv] at h
            exact Or.inl h
  · cases c with
    | clientMeta m =>
      simp only [process_opq_payload] at h
      by_cases hp : 4096 < psize
      · rw [if_pos hp, if_pos (Or.inr rfl)] at h
        exact Or.inl h
      · rw [if_neg hp] at h
        by_cases hg : (decide (uuid = OSD_CLIENT_METADATA_UUID) ||
        decide (uuid = CV_META_UUID) ||
        decide (uuid = OBJECT_DETECTIONS_DAY_UUID)) = false ∨ psize = 0
        · rw [if_pos hg] at h
          exact Or.inl h
        · rw [if_neg hg] at h
          by_cases hcl : uuid = OSD_CLIENT_METADATA_UUID
          · rw [if_pos hcl] at h
            split at h
            · exact Or.inl h
            · exact Or.inl h
          · rw [if_neg hcl] at h
            by_cases hcv : uuid = CV_META_UUID
            · rw [if_pos hcv] at h
              exact Or.inl h
            · rw [if_neg hcv] at h
              exact Or.inl h
    | cvMeta hday sval l0 l3 =>
      simp only [process_opq_payload] at h
      by_cases hp : 4096 < psize
      · rw [if_pos hp, if_pos (Or.inr rfl)] at h
        exact Or.inl h
      · rw [if_neg hp] at h
        by_cases hg : (decide (uuid = OSD_CLIENT_METADATA_UUID) ||
        decide (uuid = CV_META_UUID) ||
        decide (uuid = OBJECT_DETECTIONS_DAY_UUID)) = false ∨ psize = 0
        · rw [if_pos hg] at h
          exact Or.inl h
        · rw [if_neg hg] at h
          by_cases hcl : uuid = OSD_CLIENT_METADATA_UUID
          · rw [if_pos hcl] at h
            exact Or.inl h
          · rw [if_neg hcl] at h
            by_cases hcv : uuid = CV_META_UUID
            · rw [if_pos hcv] at h
              by_cases hds : hday = true ∧ sval = true
              · right
                have hps : psize ≠ 0 := fun h0 => hg (Or.inr h0)
                refine ⟨hcv, ?_, ?_, l0, l3, ?_⟩
                · show 0 < psize
                  omega
                · show psize ≤ 4096
                  omega
                · show some (PayloadContent.cvMeta hday sval l0 l3) =
                    some (PayloadContent.cvMeta true true l0 l3)
                  rw [hds.1, hds.2]
              · rw [if_neg hds] at h
                exact Or.inl h
            · rw [if_neg hcv] at h
              exact Or.inl h
    | detectionsDay st ds =>
      simp only [process_opq_payload] at h
      by_cases hp : 4096 < psize
      · rw [if_pos hp, if_pos (Or.inr rfl)] at h
        exact Or.inl h
      · rw [if_neg hp] at h
        by_cases hg : (decide (uuid = OSD_CLIENT_METADATA_UUID) ||
        decide (uuid = CV_META_UUID) ||
        decide (uuid = OBJECT_DETECTIONS_DAY_UUID)) = false ∨ psize = 0
        · rw [if_pos hg] at h
          exact Or.inl h
        · rw [if_neg hg] at h
          by_cases hcl : uuid = OSD_CLIENT_METADATA_UUID
          · rw [if_pos hcl] at h
            exact Or.inl h
          · rw [if_neg hcl] at h
            by_cases hcv : uuid = CV_META_UUID
            · rw [if_pos hcv] at h
              exact Or.inl h
            · rw [if_neg hcv] at h
              exact Or.inl h

/-- Source `process_opq_payload` sets the detections validity flag only for a
decodable day-channel detections payload. -/
theorem process_detections_mono (ctx : OsdCtx) (p : OpqPayload)
    (h : (process_opq_payload ctx p).detections.valid = true) :
    ctx.detections.valid = true ∨ sets_detections p := by
  rcases p with ⟨uuid, psize, content⟩
  rcases content with _ | c
  · simp only [process_opq_payload] at h
    by_cases hp : 4096 < psize
    · rw [if_pos hp, if_pos (Or.inr rfl)] at h
      exact Or.inl h
    · rw [if_neg hp] at h
      by_cases hg : (decide (uuid = OSD_CLIENT_METADATA_UUID) ||
        decide (uuid = CV_META_UUID) ||
        decide (uuid = OBJECT_DETECTIONS_DAY_UUID)) = false ∨ psize = 0
      · rw [if_pos hg] at h
        exact Or.inl h
      · rw [if_neg hg] at h
        by_cases hcl : uuid = OSD_CLIENT_METADATA_UUID
        · rw [if_pos hcl] at h
          exact Or.inl h
        · rw [if_neg hcl] at h
          by_cases hcv : uuid = CV_META_UUID
          · rw [if_pos hcv] at h
            exact Or.inl h
          · rw [if_neg hcv] at h
            exact Or.inl h
  · cases c with
    | clientMeta m =>
      simp only [process_opq_payload] at h
      by_cases hp : 4096 < psize
      · rw [if_pos hp, if_pos (Or.inr rfl)] at h
        exact Or.inl h
      · rw [if_neg hp] at h
        by_cases hg : (decide (uuid = OSD_CLIENT_METADATA_UUID) ||
        decide (uuid = CV_META_UUID) ||
        decide (uuid = OBJECT_DETECTIONS_DAY_UUID)) = false ∨ psize = 0
        · rw [if_pos hg] at h
          exact Or.inl h
        · rw [if_neg hg] at h
          by_cases hcl : uuid = OSD_CLIENT_METADATA_UUID
          · rw [if_pos hcl] at h
            split at h
            · exact Or.inl h
            · exact Or.inl h
          · rw [if_neg hcl] at h
            by_cases hcv : uuid = CV_META_UUID
            · rw [if_pos hcv] at h
              exact Or.inl h
            · rw [if_neg hcv] at h
              exact Or.inl h
    | cvMeta hday sval l0 l3 =>
      simp only [process_opq_payload] at h
      by_cases hp : 4096 < psize
      · rw [if_pos hp, if_pos (Or.inr rfl)] at h
        exact Or.inl h
      · rw [if_neg hp] at h
        by_cases hg : (decide (uuid = OSD_CLIENT_METADATA_UUID) ||
        decide (uuid = CV_META_UUID) ||
        decide (uuid = OBJECT_DETECTIONS_DAY_UUID)) = false ∨ psize = 0
        · rw [if_pos hg] at h
          exact Or.inl h
        · rw [if_neg hg] at h
          by_cases hcl : uuid = OSD_CLIENT_METADATA_UUID
          · rw [if_pos hcl] at h
            exact Or.inl h
          · rw [if_neg hcl] at h
            by_cases hcv : uuid = CV_META_UUID
            · rw [if_pos hcv] at h
              by_cases hds : hday = true ∧ sval = true
              · rw [if_pos hds] at h
                exact Or.inl h
              · rw [if_neg hds] at h
                exact Or.inl h
            · rw [if_neg hcv] at h
              exact Or.inl h
    | detectionsDay st ds =>
      simp only [process_opq_payload] at h
      by_cases hp : 4096 < psize
      · rw [if_pos hp, if_pos (Or.inr rfl)] at h
        exact Or.inl h
      · rw [if_neg hp] at h
        by_cases hg : (decide (uuid = OSD_CLIENT_METADATA_UUID) ||
        decide (uuid = CV_META_UUID) ||
        decide (uuid = OBJECT_DETECTIONS_DAY_UUID)) = false ∨ psize = 0
        · rw [if_pos hg] at h
          exact Or.inl h
        · rw [if_neg hg] at h
          by_cases hcl : uuid = OSD_CLIENT_METADATA_UUID
          · rw [if_pos hcl] at h
            exact Or.inl h
          · rw [if_neg hcl] at h
            by_cases hcv : uuid = CV_META_UUID
            · rw [if_pos hcv] at h
              exact Or.inl h
            · rw [if_neg hcv] at h
              right
              have hps : psize ≠ 0 := fun h0 => hg (Or.inr h0)
              have huuid : uuid = OBJECT_DETECTIONS_DAY_UUID := by
                have hm : (decide (uuid = OSD_CLIENT_METADATA_UUID) ||
                    decide (uuid = CV_META_UUID) ||
                    decide (uuid = OBJECT_DETECTIONS_DAY_UUID)) = true := by
                  rcases Bool.eq_false_or_eq_true
                      ((decide (uuid = OSD_CLIENT_METADATA_UUID) ||
                        decide (uuid = CV_META_UUID) ||
                        decide (uuid = OBJECT_DETECTIONS_DAY_UUID)))
                    with hx | hx
                  · exact hx
                  · exact absurd (Or.inl hx) hg
                rcases Bool.or_eq_true_iff.mp hm with hx | hx
                · rcases Bool.or_eq_true_iff.mp hx with hy | hy
                  · exact absurd (of_decide_eq_true hy) hcl
                  · exact absurd (of_decide_eq_true hy) hcv
                · exact of_decide_eq_true hx
              refine ⟨huuid, ?_, ?_, st, ds, rfl⟩
              · show 0 < psize
                omega
              · show psize ≤ 4096
                omega

/-- Source `process_opq_payload` never clears the client-metadata validity flag. -/
theorem process_client_meta_mono (ctx : OsdCtx) (p : OpqPayload)
    (h : ctx.client_metadata.valid = true) :
    (process_opq_payload ctx p).client_metadata.valid = true := by
  rcases p with ⟨uuid, psize, content⟩
  rcases content with _ | c
  · simp only [process_opq_payload]
    by_cases hp : 4096 < psize
    · rw [if_pos hp, if_pos (Or.inr rfl)]
      exact h
    · rw [if_neg hp]
      by_cases hg : (decide (uuid = OSD_CLIENT_METADATA_UUID) ||
        decide (uuid = CV_META_UUID) ||
        decide (uuid = OBJECT_DETECTIONS_DAY_UUID)) = false ∨ psize = 0
      · rw [if_pos hg]
        exact h
      · rw [if_neg hg]
        by_cases hcl : uuid = OSD_CLIENT_METADATA_UUID
        · rw [if_pos hcl]
          exact h
        · rw [if_neg hcl]
          by_cases hcv : uuid = CV_META_UUID
          · rw [if_pos hcv]
            exact h
          · rw [if_neg hcv]
            exact h
  · cases c with
    | clientMeta m =>
      simp only [process_opq_payload]
      by_cases hp : 4096 < psize
      · rw [if_pos hp, if_pos (Or.inr rfl)]
        exact h
      · rw [if_neg hp]
        by_cases hg : (decide (uuid = OSD_CLIENT_METADATA_UUID) ||
        decide (uuid = CV_META_UUID) ||
        decide (uuid = OBJECT_DETECTIONS_DAY_UUID)) = false ∨ psize = 0
        · rw [if_pos hg]
          exact h
        · rw [if_neg hg]
          by_cases hcl : uuid = OSD_CLIENT_METADATA_UUID
          · rw [if_pos hcl]
            split
            · exact h
            · rfl
          · rw [if_neg hcl]
            by_cases hcv : uuid = CV_META_UUID
            · rw [if_pos hcv]
              exact h
            · rw [if_neg hcv]
              exact h
    | cvMeta hday sval l0 l3 =>
      simp only [process_opq_payload]
      by_cases hp : 4096 < psize
      · rw [if_pos hp, if_pos (Or.inr rfl)]
        exact h
      · rw [if_neg hp]
        by_cases hg : (decide (uuid = OSD_CLIENT_METADATA_UUID) ||
        decide (uuid = CV_META_UUID) ||
        decide (uuid = OBJECT_DETECTIONS_DAY_UUID)) = false ∨ psize = 0
        · rw [if_pos hg]
          exact h
        · rw [if_neg hg]
          by_cases hcl : uuid = OSD_CLIENT_METADATA_UUID
          · rw [if_pos hcl]
            exact h
          · rw [if_neg hcl]
            by_cases hcv : uuid = CV_META_UUID
            · rw [if_pos hcv]
              by_cases hds : hday = true ∧ sval = true
              · rw [if_pos hds]
                exact h
              · rw [if_neg hds]
                exact h
            · rw [if_neg hcv]
              exact h
    | detectionsDay st ds =>
      simp only [process_opq_payload]
      by_cases hp : 4096 < psize
      · rw [if_pos hp, if_pos (Or.inr rfl)]
        exact h
      · rw [if_neg hp]
        by_cases hg : (decide (uuid = OSD_CLIENT_METADATA_UUID) ||
        decide (uuid = CV_META_UUID) ||
        decide (uuid = OBJECT_DETECTIONS_DAY_UUID)) = false ∨ psize = 0
        · rw [if_pos hg]
          exact h
        · rw [if_neg hg]
          by_cases hcl : uuid = OSD_CLIENT_METADATA_UUID
          · rw [if_pos hcl]
            exact h
          · rw [if_neg hcl]
            by_cases hcv : uuid = CV_META_UUID
            · rw [if_pos hcv]
              exact h
            · rw [if_neg hcv]
              exact h

/-- Folding the payload processor: the sharpness flag can only come from
the initial context or from a payload in the list. -/
theorem foldl_sharpness (ps : List OpqPayload) (ctx : OsdCtx)
    (h : (ps.foldl process_opq_payload ctx).cv_meta.sharpness_valid = true) :
    ctx.cv_meta.sharpness_valid = true ∨ ∃ p ∈ ps, sets_sharpness p := by
  induction ps generalizing ctx with
  | nil => exact Or.inl h
  | cons q qs ih =>
    rw [List.foldl_cons] at h
    rcases ih _ h with h2 | ⟨p, hp, hs⟩
    · rcases process_sharpness_mono ctx q h2 with h3 | h3
      · exact Or.inl h3
      · exact Or.inr ⟨q, List.mem_cons_self q qs, h3⟩
    · exact Or.inr ⟨p, List.mem_cons_of_mem q hp, hs⟩

/-- Folding the payload processor: the detections flag can only come from
the initial context or from a payload in the list. -/
theorem foldl_detections (ps : List OpqPayload) (ctx : OsdCtx)
    (h : (ps.foldl process_opq_payload ctx).detections.valid = true) :
    ctx.detections.valid = true ∨ ∃ p ∈ ps, sets_detections p := by
  induction ps generalizing ctx with
  | nil => exact Or.inl h
  | cons q qs ih =>
    rw [List.foldl_cons] at h
    rcases ih _ h with h2 | ⟨p, hp, hs⟩
    · rcases process_detections_mono ctx q h2 with h3 | h3
      · exact Or.inl h3
      · exact Or.inr ⟨q, List.mem_cons_self q qs, h3⟩
    · exact Or.inr ⟨p, List.mem_cons_of_mem q hp, hs⟩

/-- Folding the payload processor preserves client-metadata validity. -/
theorem foldl_client_meta (ps : List OpqPayload) (ctx : OsdCtx)
    (h : ctx.client_metadata.valid = true) :
    (ps.foldl process_opq_payload ctx).client_metadata.valid = true := by
  induction ps generalizing ctx with
  | nil => exact h
  | cons q qs ih =>
    rw [List.foldl_cons]
    exact ih _ (process_client_meta_mono ctx q h)

/-- C1 counterexample: a decode that succeeds on a frame carrying no
opaque payloads leaves stale client metadata valid — the client-metadata
validity flag is not reset at the top of the decode and the previous
frame's decoded metadata is reused. -/
theorem decode_reset_counterexample :
    (decode_proto_state ctxStale frame_empty).2 = true ∧
    (decode_proto_state ctxStale frame_empty).1.client_metadata.valid
      = true ∧
    frame_empty.opq_payloads = [] := by
  decide

/-- C1 amended: at the top of the decode only the sharpness and detections
validity flags are reset; those two fields are valid after the decode only
if a matching payload of the current frame decodes; the client-metadata
validity flag instead persists from previous frames. -/
theorem decode_proto_state_validity (ctx : OsdCtx) (frame : Frame)
    (h1 : ctx.proto_valid = true) (h2 : ctx.proto_size ≠ 0) :
    ((decode_proto_state ctx frame).1.cv_meta.sharpness_valid = true →
      ∃ p ∈ frame.opq_payloads, sets_sharpness p) ∧
    ((decode_proto_state ctx frame).1.detections.valid = true →
      ∃ p ∈ frame.opq_payloads, sets_detections p) ∧
    (ctx.client_metadata.valid = true →
      (decode_proto_state ctx frame).1.client_metadata.valid = true) := by
  have hcond : ¬(ctx.proto_valid = false ∨ ctx.proto_size = 0) := by
    simp [h1, h2]
  refine ⟨?_, ?_, ?_⟩
  · intro h
    simp only [decode_proto_state] at h
    rw [if_neg hcond] at h
    rcases foldl_sharpness _ _ h with hfalse | hex
    · simp at hfalse
    · exact hex
  · intro h
    simp only [decode_proto_state] at h
    rw [if_neg hcond] at h
    rcases foldl_detections _ _ h with hfalse | hex
    · simp at hfalse
    · exact hex
  · intro h
    simp only [decode_proto_state]
    rw [if_neg hcond]
    exact foldl_client_meta _ _ h

/-- C1 witness: a frame carrying a decodable CvMeta payload makes the
sharpness cache valid, and the payload is indeed in the frame. -/
theorem decode_proto_state_validity_witness :
    ∃ p ∈ frame_cv.opq_payloads, sets_sharpness p :=
  (decode_proto_state_validity ctx_render frame_cv rfl (by decide)).1
    (by decide)

/-- The widget invocation trace of `render_widgets`: seven widgets when
the proto state decoded, four otherwise; the SAM-mask and autofocus-debug
widgets are never invoked. -/
theorem render_widgets_order (W : WidgetSet) (ctx : OsdCtx)
    (proto : Option Frame) :
    (render_widgets W ctx proto).2.2 =
      (if proto.isSome then
        [WidgetId.crosshair, WidgetId.timestamp, WidgetId.navball,
         WidgetId.variantInfo, WidgetId.sharpnessHeatmap,
         WidgetId.detections, WidgetId.roi]
      else
        [WidgetId.crosshair, WidgetId.variantInfo,
         WidgetId.sharpnessHeatmap, WidgetId.detections]) ∧
    WidgetId.samMask ∉ (render_widgets W ctx proto).2.2 ∧
    WidgetId.autofocusDebug ∉ (render_widgets W ctx proto).2.2 := by
  cases proto with
  | none => refine ⟨?_, ?_, ?_⟩ <;> simp [render_widgets]
  | some f => refine ⟨?_, ?_, ?_⟩ <;> simp [render_widgets]

/-- C3 counterexample: a rendering render pass with decoded telemetry
invokes seven widgets, not the nine of the claim; the SAM-tracking and
autofocus-debug widgets are omitted from the invocation sequence. -/
theorem render_order_counterexample :
    (wasm_osd_render Wtriv parse0 ctx_render).2.2 ≠
      [WidgetId.crosshair, WidgetId.timestamp, WidgetId.navball,
       WidgetId.variantInfo, WidgetId.sharpnessHeatmap,
       WidgetId.detections, WidgetId.roi, WidgetId.samMask,
       WidgetId.autofocusDebug] ∧
    WidgetId.samMask ∉ (wasm_osd_render Wtriv parse0 ctx_render).2.2 ∧
    WidgetId.autofocusDebug ∉ (wasm_osd_render Wtriv parse0 ctx_render).2.2
    := by
  decide

/-- C3 amended: a render pass that renders performs clear → decode →
widgets in the fixed order crosshair, timestamp, navball, variant info,
sharpness heatmap, detections, ROI — timestamp, navball and ROI only when
the telemetry decoded — and never invokes the SAM-mask or autofocus-debug
widgets. -/
theorem wasm_osd_render_order (W : WidgetSet) (parse : List Nat → Frame)
    (ctx : OsdCtx) (h : ctx.needs_render = true) :
    (wasm_osd_render W parse ctx).2.2 =
      (if (renderDecode parse (renderClear ctx)).2.isSome then
        [WidgetId.crosshair, WidgetId.timestamp, WidgetId.navball,
         WidgetId.variantInfo, WidgetId.sharpnessHeatmap,
         WidgetId.detections, WidgetId.roi]
      else
        [WidgetId.crosshair, WidgetId.variantInfo,
         WidgetId.sharpnessHeatmap, WidgetId.detections]) ∧
    WidgetId.samMask ∉ (wasm_osd_render W parse ctx).2.2 ∧
    WidgetId.autofocusDebug ∉ (wasm_osd_render W parse ctx).2.2 := by
  unfold wasm_osd_render
  rw [if_neg (by simp [h])]
  exact render_widgets_order W (renderDecode parse (renderClear ctx)).1
    (renderDecode parse (renderClear ctx)).2

/-- C3 witness: the concrete rendering pass with decoded telemetry yields
exactly the seven-widget trace. -/
theorem wasm_osd_render_order_witness :
    (wasm_osd_render Wtriv parse0 ctx_render).2.2 =
      [WidgetId.crosshair, WidgetId.timestamp, WidgetId.navball,
       WidgetId.variantInfo, WidgetId.sharpnessHeatmap,
       WidgetId.detections, WidgetId.roi] := by
  rw [(wasm_osd_render_order Wtriv parse0 ctx_render rfl).1]
  decide

/-- C4: when no render is pending, `render` returns 0 leaving the whole
context unchanged; when one is pending it clears the framebuffer to
transparent, decodes exactly when the buffer is marked valid, renders
the widgets, clears `needs_render` and returns 1 iff some widget reported
a change. -/
theorem wasm_osd_render_spec (W : WidgetSet) (parse : List Nat → Frame)
    (ctx : OsdCtx) :
    (ctx.needs_render = false → wasm_osd_render W parse ctx = (ctx, 0, [])) ∧
    (ctx.needs_render = true →
      (∀ px ∈ (renderClear ctx).framebuffer, px = 0) ∧
      (ctx.proto_valid = false →
        renderDecode parse (renderClear ctx) = (renderClear ctx, none)) ∧
      (ctx.proto_valid = true →
        (renderDecode parse (renderClear ctx)).1 =
          (decode_proto_state (renderClear ctx)
            (parse (renderClear ctx).proto_buffer)).1) ∧
      wasm_osd_render W parse ctx =
        ({ (render_widgets W (renderDecode parse (renderClear ctx)).1
            (renderDecode parse (renderClear ctx)).2).1
            with needs_render := false },
          if (render_widgets W (renderDecode parse (renderClear ctx)).1
              (renderDecode parse (renderClear ctx)).2).2.1 then 1 else 0,
          (render_widgets W (renderDecode parse (renderClear ctx)).1
            (renderDecode parse (renderClear ctx)).2).2.2) ∧
      (wasm_osd_render W parse ctx).1.needs_render = false ∧
      ((wasm_osd_render W parse ctx).2.1 = 1 ↔
        (render_widgets W (renderDecode parse (renderClear ctx)).1
          (renderDecode parse (renderClear ctx)).2).2.1 = true)) := by
  constructor
  · intro h
    unfold wasm_osd_render
    rw [if_pos h]
  · intro h
    have hne : ¬(ctx.needs_render = false) := by simp [h]
    refine ⟨?_, ?_, ?_, ?_, ?_, ?_⟩
    · intro px hpx
      simp only [renderClear] at hpx
      exact List.eq_of_mem_replicate hpx
    · intro hpv
      simp [renderDecode, renderClear, hpv]
    · intro hpv
      simp [renderDecode, renderClear, hpv]
    · unfold wasm_osd_render
      rw [if_neg hne]
    · unfold wasm_osd_render
      rw [if_neg hne]
    · unfold wasm_osd_render
      rw [if_neg hne]
      by_cases hb : (render_widgets W (renderDecode parse (renderClear ctx)).1
          (renderDecode parse (renderClear ctx)).2).2.1 = true
      · simp [hb]
      · simp [hb]

/-- C4 witness: with no render pending the concrete context is returned
unchanged with result 0. -/
theorem wasm_osd_render_spec_witness :
    wasm_osd_render Wtriv parse0 ctx_idle = (ctx_idle, 0, []) :=
  (wasm_osd_render_spec Wtriv parse0 ctx_idle).1 rfl

end OSD
